import Mathlib

/-
Verification of the MLLP outbound connection pool of `mllp_http_https/https2mllp.py`
(the HTTPS → MLLP gateway).  The Python classes `MllpClientOptions`, `MllpClient`,
`MllpConnection` and the handler method `HttpsHandler.do_POST` are embedded below as
pure Lean functions; shared mutable state becomes explicit state passing, the
`time.monotonic()` clock becomes an integer parameter supplied at each read, and
the network (socket connect, `send_mllp`) becomes oracle parameters describing
whether those calls succeed and which acknowledgement bytes come back.
-/

/-- State of one Python `MllpConnection` object (https2mllp.py, `__init__`, lines
91-96).  `id` models the identity of the Python object (and of its socket), so that
list membership and `list.remove` — which compare by object identity — can be
expressed.  `closed` is the `self.closed` attribute set in `__init__`.
`closeRebound` records whether the statement `self.close = True` in the `close`
method has run, i.e. whether the instance attribute `close` now shadows the bound
method; `socketOpen` records whether the underlying socket is still open (it is
shut down and closed by the body of `close`).  `last_update` and `message_count`
are the attributes of the same names. -/
structure MllpConnection where
  id : Nat
  closed : Bool
  closeRebound : Bool
  socketOpen : Bool
  last_update : Option Int
  message_count : Nat
deriving DecidableEq

/-- A freshly connected `MllpConnection(s)` as built in `MllpClient._connect`
(lines 54-69): `closed = False`, `last_update = None`, `message_count = 0`, the
socket just connected, the `close` attribute still the bound method. -/
def MllpConnection.new (id : Nat) : MllpConnection :=
  { id := id, closed := false, closeRebound := false, socketOpen := true,
    last_update := none, message_count := 0 }

/-- Invoking `connection.close()` (https2mllp.py, lines 98-102).  The Python body is
`self.close = True; self.socket.shutdown(2); self.socket.close()`: it rebinds the
attribute named `close` (note: NOT `closed`) and closes the socket.  If the
attribute has already been rebound to `True`, the call expression
`connection.close()` raises `TypeError` ("bool object is not callable"), modelled
as `none`. -/
def MllpConnection.invokeClose (c : MllpConnection) : Option MllpConnection :=
  if c.closeRebound then none
  else some { c with closeRebound := true, socketOpen := false }

/-- The `MllpClientOptions` record (lines 18-23).  `keep_alive` may be `None`
(watchdog threads are spawned in `_connect` only when it is not `None`);
`max_messages` is an int where a negative value means unlimited; `timeout` is the
socket timeout (irrelevant to pool-state behaviour, kept for completeness). -/
structure MllpClientOptions where
  keep_alive : Option Int
  max_messages : Int
  timeout : Int
deriving DecidableEq

/-- Pool state of `MllpClient` (lines 26-31): the destination `address` (abstracted
to an opaque identifier; an immutable `(host, port)` pair in the source), the
options, and the idle-connection list `self.connections`.  The `threading.Lock`
guarding the list is represented by making each locked critical section one atomic
step of the embedding. -/
structure MllpClient where
  address : Nat
  options : MllpClientOptions
  connections : List MllpConnection
deriving DecidableEq

/-- Outcome of one `MllpClient.send` call: either the acknowledgement bytes are
returned, or an exception propagates to the caller.  `connectFailure` is a socket
error raised inside `_connect`; `sendFailure` an error raised by
`connection.send` / `send_mllp` (write failure, short read, timeout);
`closeTypeError` the `TypeError` raised when `connection.close()` is invoked on a
connection whose `close` attribute was already rebound. -/
inductive SendOutcome where
  | ok (ack : List Nat)
  | connectFailure
  | sendFailure
  | closeTypeError
deriving DecidableEq

/-- Everything observable about one `MllpClient.send` call: the pool state left
behind (mutations performed before an exception persist, as in Python), the
outcome, how many `socket.connect` attempts were made, how many times
`connection.close()` ran to completion, the final state of the leased connection
(`none` when connect failed before a connection object existed), and whether the
connection was appended back to the idle list. -/
structure SendResult where
  client : MllpClient
  result : SendOutcome
  connects : Nat
  closes : Nat
  conn : Option MllpConnection
  pooledBack : Bool
deriving DecidableEq

/-- The first `with self.lock` block of `MllpClient.send` (lines 72-78):
`self.connections.pop()` pops the LAST element of the list; on success the popped
connection's `last_update` is set to `None`; on `IndexError` (empty list) the
leased connection is `None` and the pool is left unchanged. -/
def MllpClient.acquire (st : MllpClient) : MllpClient × Option MllpConnection :=
  match st.connections.getLast? with
  | some c =>
      ({ st with connections := st.connections.dropLast },
       some { c with last_update := none })
  | none => (st, none)

/-- The remainder of `MllpClient.send` (lines 81-88) once a connection `c0` is
leased, having taken `nConnects` connect attempts to obtain it.
`connection.send(data)` increments `message_count` and then calls `send_mllp`,
whose result is the oracle `ackResult` (`none` = the network raised).  On success,
if `self.options.max_messages <= connection.message_count and
self.options.max_messages >= 0` the connection is closed and discarded; otherwise
`connection.last_update = time.monotonic()` (the parameter `now`) and the
connection is appended back to `self.connections` under the lock. -/
def MllpClient.sendLeased (st1 : MllpClient) (c0 : MllpConnection) (nConnects : Nat)
    (now : Int) (ackResult : Option (List Nat)) : SendResult :=
  let c1 : MllpConnection := { c0 with message_count := c0.message_count + 1 }
  match ackResult with
  | none =>
      { client := st1, result := .sendFailure, connects := nConnects, closes := 0,
        conn := some c1, pooledBack := false }
  | some ack =>
      if st1.options.max_messages ≤ (c1.message_count : Int) ∧
          0 ≤ st1.options.max_messages then
        match c1.invokeClose with
        | some c2 =>
            { client := st1, result := .ok ack, connects := nConnects, closes := 1,
              conn := some c2, pooledBack := false }
        | none =>
            { client := st1, result := .closeTypeError, connects := nConnects,
              closes := 0, conn := some c1, pooledBack := false }
      else
        let c2 : MllpConnection := { c1 with last_update := some now }
        { client := { st1 with connections := st1.connections ++ [c2] },
          result := .ok ack, connects := nConnects, closes := 0,
          conn := some c2, pooledBack := true }

/-- One whole `MllpClient.send(data)` call (lines 71-88).  `freshId` is the
identity a newly created connection object would get; `now` the value
`time.monotonic()` returns at the release point; `connectOk` whether
`s.connect(self.address)` in `_connect` succeeds; `ackResult` the oracle for
`send_mllp`.  When the idle list is empty and `_connect` raises, the exception
propagates with the pool unchanged and no connection object pooled. -/
def MllpClient.send (st : MllpClient) (freshId : Nat) (now : Int)
    (connectOk : Bool) (ackResult : Option (List Nat)) : SendResult :=
  match st.connections.getLast? with
  | some c =>
      MllpClient.sendLeased { st with connections := st.connections.dropLast }
        { c with last_update := none } 0 now ackResult
  | none =>
      if connectOk then
        MllpClient.sendLeased st (MllpConnection.new freshId) 1 now ackResult
      else
        { client := st, result := .connectFailure, connects := 1, closes := 0,
          conn := none, pooledBack := false }

/-- What one iteration of the watchdog loop in `MllpClient._check_connection`
does after waking (lines 33-52): exit the `while not connection.closed` loop,
sleep for a positive remaining budget, remove the connection from the pool and
close it (`keep_alive > 0`), remove it without closing (`keep_alive <= 0`), hit
`ValueError` in `self.connections.remove` and `pass`, or hit the `TypeError` of a
rebound `close` attribute. -/
inductive WatchAction where
  | exited
  | sleep (d : Int)
  | removedClosed
  | removedNoClose
  | removeFailed
  | closeError
deriving DecidableEq

/-- A `WatchAction` that reached the `self.connections.remove(connection)`
statement, i.e. an attempt to remove the connection from the idle list under the
lock. -/
def WatchAction.isRemovalAttempt : WatchAction → Bool
  | .removedClosed => true
  | .removedNoClose => true
  | .removeFailed => true
  | .closeError => true
  | _ => false

/-- A `WatchAction` that is a `time.sleep` of some duration. -/
def WatchAction.isSleep : WatchAction → Bool
  | .sleep _ => true
  | _ => false

/-- Result of one watchdog loop iteration: the action taken, the idle list
afterwards, and the watched connection's state afterwards. -/
structure WatchStepResult where
  action : WatchAction
  pool : List MllpConnection
  conn : MllpConnection
deriving DecidableEq

/-- Python `self.connections.remove(connection)`: remove the first element that
is the same object (same identity) as the argument; `none` models the
`ValueError` raised when no element matches. -/
def removeById (k : Nat) : List MllpConnection → Option (List MllpConnection)
  | [] => none
  | x :: xs =>
      if x.id = k then some xs
      else (removeById k xs).map (fun ys => x :: ys)

/-- One iteration of the `while not connection.closed` loop of
`MllpClient._check_connection` (lines 33-52), for `self.options.keep_alive = ka`
(the watchdog thread is only spawned by `_connect` when `keep_alive` is not
`None`).  `elasped = connection.last_update - time.monotonic()` when
`last_update` is not `None`, else `0`; `remaining = keep_alive + elasped`; if
`0 < remaining` the thread sleeps for `remaining`, otherwise it tries
`self.connections.remove(connection)` under the lock (`ValueError` → `pass`), and
on successful removal invokes `connection.close()` only when
`self.options.keep_alive > 0` (the source comment: "To keep the connection alive
in case keep_alive is -1"). -/
def watchdogStep (ka : Int) (pool : List MllpConnection) (c : MllpConnection)
    (now : Int) : WatchStepResult :=
  if c.closed then ⟨.exited, pool, c⟩
  else
    let elasped : Int :=
      match c.last_update with
      | some t => t - now
      | none => 0
    let remaining : Int := ka + elasped
    if 0 < remaining then ⟨.sleep remaining, pool, c⟩
    else
      match removeById c.id pool with
      | none => ⟨.removeFailed, pool, c⟩
      | some pool' =>
          if 0 < ka then
            match c.invokeClose with
            | some c' => ⟨.removedClosed, pool', c'⟩
            | none => ⟨.closeError, pool', c⟩
          else ⟨.removedNoClose, pool', c⟩

/-- Object identities of the connections in a list. -/
def idsOf (l : List MllpConnection) : List Nat :=
  l.map (fun c => c.id)

/-- Inputs of one `MllpClient.send` call for multi-step runs: the fresh object
identity used if a new connection is created, the clock value at the release
point, and the network oracles. -/
structure SendInput where
  freshId : Nat
  now : Int
  connectOk : Bool
  ack : Option (List Nat)
deriving DecidableEq

/-- Configuration of `HttpsHandler` relevant to response construction
(lines 121-127): the optional `Content-Type` value and the optional HTTP
keep-alive advertisement. -/
structure HandlerConfig where
  content_type : Option String
  keep_alive : Option Int
deriving DecidableEq

/-- An HTTP response as assembled by `BaseHTTPRequestHandler`: the status code
sent by `send_response`, the headers sent by `send_header` in order, and the body
written to `wfile`. -/
structure HttpResponse where
  status : Nat
  headers : List (String × String)
  body : List Nat
deriving DecidableEq

/-- `HttpsHandler.do_POST` (lines 130-144): read `Content-Length` bytes of the
request body from `rfile`, call `self.mllp_client.send(data)`, and on success
reply `201` with `Content-Length` set to the length of the returned bytes, the
optional configured `Content-Type` and `Keep-Alive: timeout=<n>` headers, and the
acknowledgement bytes as the body.  If `send` raises, the exception escapes
`do_POST` and no response is assembled here (`none`). -/
def do_POST (cfg : HandlerConfig) (st : MllpClient) (contentLength : Nat)
    (rfile : List Nat) (freshId : Nat) (now : Int) (connectOk : Bool)
    (ackResult : Option (List Nat)) : MllpClient × Option HttpResponse :=
  let data := rfile.take contentLength
  let r := st.send freshId now connectOk ackResult
  match r.result with
  | .ok response =>
      (r.client,
       some { status := 201,
              headers :=
                [("Content-Length", toString response.length)] ++
                (match cfg.content_type with
                 | some ct => [("Content-Type", ct)]
                 | none => []) ++
                (match cfg.keep_alive with
                 | some n => [("Keep-Alive", "timeout=" ++ toString n)]
                 | none => []),
              body := response })
  | _ => (r.client, none)

/-- Pool state after a sequence of `MllpClient.send` calls. -/
def runSends : MllpClient → List SendInput → MllpClient
  | st, [] => st
  | st, i :: is =>
      runSends (st.send i.freshId i.now i.connectOk i.ack).client is

/-- Identities of the connections leased (whether reused from the idle list or
freshly connected) by each `send` of a run. -/
def leasedIds : MllpClient → List SendInput → List Nat
  | _, [] => []
  | st, i :: is =>
      let r := st.send i.freshId i.now i.connectOk i.ack
      (match r.conn with
       | some c => [c.id]
       | none => []) ++ leasedIds r.client is

/-
Helper lemmas shared by the claim theorems.
-/

/-- Invoking `close()` never changes the `closed` attribute. -/
theorem invokeClose_preserves_closed {c c' : MllpConnection}
    (h : c.invokeClose = some c') : c'.closed = c.closed := by
  by_cases hr : c.closeRebound
  · simp [MllpConnection.invokeClose, hr] at h
  · simp only [MllpConnection.invokeClose, hr, Bool.false_eq_true, if_false,
      Option.some.injEq] at h
    exact h ▸ rfl

/-- Invoking `close()` never changes the object identity. -/
theorem invokeClose_preserves_id {c c' : MllpConnection}
    (h : c.invokeClose = some c') : c'.id = c.id := by
  by_cases hr : c.closeRebound
  · simp [MllpConnection.invokeClose, hr] at h
  · simp only [MllpConnection.invokeClose, hr, Bool.false_eq_true, if_false,
      Option.some.injEq] at h
    exact h ▸ rfl

/-- A watchdog wake on a not-yet-`closed` connection never exits the loop and
never makes the `closed` attribute true: the only exit condition of
`while not connection.closed` is unreachable from a non-closed state because no
code path ever assigns `connection.closed = True`. -/
theorem watchdogStep_no_exit (ka : Int) (pool : List MllpConnection)
    (c : MllpConnection) (now : Int) (h : c.closed = false) :
    (watchdogStep ka pool c now).action ≠ .exited ∧
    (watchdogStep ka pool c now).conn.closed = false := by
  unfold watchdogStep
  simp only [h, Bool.false_eq_true, if_false]
  split
  · exact ⟨by simp, h⟩
  · split
    · exact ⟨by simp, h⟩
    · split
      · split
        · next c' heq => exact ⟨by simp, (invokeClose_preserves_closed heq).trans h⟩
        · exact ⟨by simp, h⟩
      · exact ⟨by simp, h⟩

/-
C10.
-/

/-- C10: `MllpConnection.close` never sets the connection's `closed` flag.  Its
body assigns `True` to the attribute named `close` (rebinding the method), so
after a successful `close()` the `closed` attribute is unchanged (a connection
created non-closed still reads `closed = False`), and invoking `close()` a
second time on the same connection fails (`TypeError`: the attribute is now the
boolean `True`) instead of being a no-op. -/
theorem close_rebinds_close_not_closed (c : MllpConnection)
    (h : c.closeRebound = false) :
    c.invokeClose = some { c with closeRebound := true, socketOpen := false } ∧
    ({ c with closeRebound := true, socketOpen := false } : MllpConnection).closed
      = c.closed ∧
    ({ c with closeRebound := true, socketOpen := false } : MllpConnection).invokeClose
      = none := by
  refine ⟨?_, rfl, ?_⟩ <;> simp [MllpConnection.invokeClose, h]

/-- Witness for C10 at the concrete connection `MllpConnection.new 0`. -/
theorem close_rebinds_close_not_closed_witness :
    (MllpConnection.new 0).invokeClose =
      some { MllpConnection.new 0 with closeRebound := true, socketOpen := false } ∧
    ({ MllpConnection.new 0 with closeRebound := true, socketOpen := false } :
        MllpConnection).closed = (MllpConnection.new 0).closed ∧
    ({ MllpConnection.new 0 with closeRebound := true, socketOpen := false } :
        MllpConnection).invokeClose = none :=
  close_rebinds_close_not_closed (MllpConnection.new 0) rfl

/-
C2.
-/

/-- A pool with `keep_alive = 0` and unlimited `max_messages`. -/
def zeroKeepAliveClient : MllpClient := ⟨0, ⟨some 0, -1, 0⟩, []⟩

/-- C2 (showing the divergence): with `keep_alive = 0`, one successful send on an
empty pool performs exactly one connect and ZERO socket closes — the connection
is appended to the idle list, and the watchdog wake that then fires (remaining
budget `0 + (0 - 0) = 0`, not positive) removes it from the list WITHOUT calling
`close()` (the `if self.options.keep_alive > 0` guard skips the close), leaving
its socket open. -/
theorem keepalive_zero_send_never_closes :
    (zeroKeepAliveClient.send 0 0 true (some [6])).result = .ok [6] ∧
    (zeroKeepAliveClient.send 0 0 true (some [6])).connects = 1 ∧
    (zeroKeepAliveClient.send 0 0 true (some [6])).closes = 0 ∧
    (zeroKeepAliveClient.send 0 0 true (some [6])).client.connections =
      [⟨0, false, false, true, some 0, 1⟩] ∧
    watchdogStep 0 [⟨0, false, false, true, some 0, 1⟩]
        ⟨0, false, false, true, some 0, 1⟩ 0 =
      ⟨.removedNoClose, [], ⟨0, false, false, true, some 0, 1⟩⟩ ∧
    (⟨0, false, false, true, some 0, 1⟩ : MllpConnection).socketOpen = true := by
  decide

/-
C3.
-/

/-- An idle connection whose keep-alive budget (5) has expired at time 10. -/
def expiredIdleConn : MllpConnection := ⟨0, false, false, true, some 0, 1⟩

/-- The watchdog wake that evicts and closes `expiredIdleConn`. -/
def evictedStep : WatchStepResult := watchdogStep 5 [expiredIdleConn] expiredIdleConn 10

/-- C3 (showing the divergence): the watchdog loop never terminates.  A wake past
the keep-alive budget evicts the connection and runs `close()`, but `close()`
sets the attribute `close`, not `closed`, so the loop guard
`while not connection.closed` still holds: the next wake hits `ValueError` on
removal and `pass`es, and no later wake with any pool, clock or keep-alive value
can ever reach the loop's exit. -/
theorem watchdog_never_terminates :
    evictedStep.action = .removedClosed ∧
    evictedStep.conn.closed = false ∧
    (watchdogStep 5 evictedStep.pool evictedStep.conn 11).action = .removeFailed ∧
    ∀ (ka : Int) (pool : List MllpConnection) (now : Int),
      (watchdogStep ka pool evictedStep.conn now).action ≠ .exited := by
  refine ⟨by decide, by decide, by decide, ?_⟩
  intro ka pool now
  exact (watchdogStep_no_exit ka pool evictedStep.conn now (by decide)).1

/-
C5.
-/

/-- A currently leased connection: `last_update = None`, not closed. -/
def leasedConn : MllpConnection := ⟨0, false, false, true, none, 1⟩

/-- C5 counterexample: with `keep_alive = -1` and a leased connection
(`last_update = None`, not closed), the watchdog wake does NOT sleep again as the
claim states — `remaining = -1 + 0` is not positive, so it attempts removal from
the idle list instead (hitting `ValueError`). -/
theorem watchdog_leased_no_sleep_counterexample :
    leasedConn.closed = false ∧
    leasedConn.last_update = none ∧
    (watchdogStep (-1) [] leasedConn 0).action.isSleep = false ∧
    (watchdogStep (-1) [] leasedConn 0).action = .removeFailed := by
  decide

/-- C5 amended: on each wake for a non-closed connection, if `last_update` is
`None` the remaining budget equals the full keep-alive interval, and the
watchdog sleeps for it exactly when that interval is positive (when
`keep_alive ≤ 0` it attempts removal instead); if `last_update = t`, remaining is
`keep_alive - (now - t)`: the watchdog sleeps for it when positive and attempts
removal from the idle list under the lock when it is ≤ 0. -/
theorem watchdog_wake_behaviour (ka : Int) (pool : List MllpConnection)
    (c : MllpConnection) (now : Int) (h : c.closed = false) :
    (c.last_update = none →
      (0 < ka → watchdogStep ka pool c now = ⟨.sleep ka, pool, c⟩) ∧
      (ka ≤ 0 → (watchdogStep ka pool c now).action.isRemovalAttempt = true)) ∧
    (∀ t, c.last_update = some t →
      (0 < ka - (now - t) →
        watchdogStep ka pool c now = ⟨.sleep (ka - (now - t)), pool, c⟩) ∧
      (ka - (now - t) ≤ 0 →
        (watchdogStep ka pool c now).action.isRemovalAttempt = true)) := by
  constructor
  · intro hn
    constructor
    · intro hka
      unfold watchdogStep
      simp only [h, Bool.false_eq_true, if_false, hn]
      rw [if_pos (by omega)]
      simp
    · intro hka
      unfold watchdogStep
      simp only [h, Bool.false_eq_true, if_false, hn]
      rw [if_neg (by omega)]
      split
      · rfl
      · split
        · split
          · rfl
          · rfl
        · rfl
  · intro t ht
    constructor
    · intro hka
      unfold watchdogStep
      simp only [h, Bool.false_eq_true, if_false, ht]
      rw [if_pos (by omega), show ka + (t - now) = ka - (now - t) by ring]
    · intro hka
      unfold watchdogStep
      simp only [h, Bool.false_eq_true, if_false, ht]
      rw [if_neg (by omega)]
      split
      · rfl
      · split
        · split
          · rfl
          · rfl
        · rfl

/-- Witness for the amended C5 at a concrete leased connection and keep-alive. -/
theorem watchdog_wake_behaviour_witness :
    watchdogStep 5 [] leasedConn 0 = ⟨.sleep 5, [], leasedConn⟩ :=
  ((watchdog_wake_behaviour 5 [] leasedConn 0 rfl).1 rfl).1 (by decide)

/-
C4.
-/

/-- Pool options with `keep_alive = -1` and unlimited `max_messages`. -/
def negKeepAliveOptions : MllpClientOptions := ⟨some (-1), -1, 0⟩

/-- An empty pool configured with `keep_alive = -1`. -/
def emptyNegClient : MllpClient := ⟨0, negKeepAliveOptions, []⟩

/-- Two concurrent sends against the empty `keep_alive = -1` pool, in the
interleaving where both acquisition lock sections run before either thread
releases (so neither can reuse the other's connection): thread A and thread B
both pop nothing, each connects a fresh socket (object identities 0 and 1), and
each releases its connection back into the idle list after a successful
exchange (clock reads 10 and 11).  The first component counts the
`socket.connect` calls made. -/
def twoConcurrentSends : Nat × SendResult × SendResult :=
  let acqA := emptyNegClient.acquire
  let acqB := acqA.1.acquire
  let connectsA : Nat := if acqA.2 = none then 1 else 0
  let connectsB : Nat := if acqB.2 = none then 1 else 0
  let rA := acqB.1.sendLeased (MllpConnection.new 0) connectsA 10 (some [6])
  let rB := rA.client.sendLeased (MllpConnection.new 1) connectsB 11 (some [6])
  (connectsA + connectsB, rA, rB)

/-- C4: with negative `keep_alive`, no watchdog wake ever closes the socket or
touches the connection state — when expiry fires on a connection still present
in the idle list, only the bookkeeping entry is removed (the socket stays as it
was); and the two-concurrent-sends scenario on an empty `keep_alive = -1` pool
performs exactly 2 connects and leaves both connections in the idle pool, open. -/
theorem keepalive_negative_keeps_socket (ka : Int) (pool : List MllpConnection)
    (c : MllpConnection) (now : Int) (hka : ka < 0) :
    ((watchdogStep ka pool c now).conn = c ∧
     (watchdogStep ka pool c now).action ≠ .removedClosed ∧
     (watchdogStep ka pool c now).action ≠ .closeError) ∧
    (c.closed = false → (∀ t, c.last_update = some t → t ≤ now) →
      ∀ pool', removeById c.id pool = some pool' →
        watchdogStep ka pool c now = ⟨.removedNoClose, pool', c⟩) ∧
    (twoConcurrentSends.1 = 2 ∧
     twoConcurrentSends.2.2.client.connections =
       [⟨0, false, false, true, some 10, 1⟩, ⟨1, false, false, true, some 11, 1⟩]) := by
  refine ⟨?_, ?_, by decide, by decide⟩
  · unfold watchdogStep
    by_cases hc : c.closed
    · simp [hc]
    · rcases hu : c.last_update with _ | t
      · rcases hrem : removeById c.id pool with _ | pool''
        · simp [hc, hu, hrem, show ¬ (0 : Int) < ka by omega]
        · simp [hc, hu, hrem, show ¬ (0 : Int) < ka by omega]
      · by_cases hr : (0 : Int) < ka + (t - now)
        · simp [hc, hu, hr]
        · rcases hrem : removeById c.id pool with _ | pool''
          · simp [hc, hu, hr, hrem]
          · simp [hc, hu, hr, hrem, show ¬ (0 : Int) < ka by omega]
  · intro hc ht pool' hrem
    unfold watchdogStep
    rcases hu : c.last_update with _ | t
    · simp [hc, hu, hrem, show ¬ (0 : Int) < ka + 0 by omega,
        show ¬ (0 : Int) < ka by omega]
    · have h1 : t ≤ now := ht t hu
      simp [hc, hu, hrem, show ¬ (0 : Int) < ka + (t - now) by omega,
        show ¬ (0 : Int) < ka by omega]

/-- Witness for C4 at a concrete negative keep-alive, expired idle connection and
singleton pool. -/
theorem keepalive_negative_keeps_socket_witness :
    watchdogStep (-1) [expiredIdleConn] expiredIdleConn 10 =
      ⟨.removedNoClose, [], expiredIdleConn⟩ :=
  (keepalive_negative_keeps_socket (-1) [expiredIdleConn] expiredIdleConn 10
      (by decide)).2.1 rfl (by decide) [] (by decide)

/-
C6.
-/

/-- All branches of the post-lease part of `send` report the connect count they
were handed. -/
theorem sendLeased_connects (st1 : MllpClient) (c0 : MllpConnection) (n : Nat)
    (now : Int) (ar : Option (List Nat)) :
    (st1.sendLeased c0 n now ar).connects = n := by
  unfold MllpClient.sendLeased
  rcases ar with _ | ack
  · rfl
  · simp only []
    split
    · split <;> rfl
    · rfl

/-- C6: acquisition is LIFO.  When the idle list is non-empty, the connection
popped is the last (most recently appended, i.e. most recently released) one,
its `last_update` is set to `None`, and no connect happens; only when the list
is empty does `send` connect a fresh socket. -/
theorem acquisition_lifo (st : MllpClient) (fid : Nat) (now : Int) (cok : Bool)
    (ar : Option (List Nat)) :
    (∀ rest c, st.connections = rest ++ [c] →
      st.acquire =
        ({ st with connections := rest }, some { c with last_update := none }) ∧
      (st.send fid now cok ar).connects = 0) ∧
    (st.connections = [] →
      st.acquire = (st, none) ∧ (st.send fid now cok ar).connects = 1) := by
  constructor
  · intro rest c hst
    have hlast : st.connections.getLast? = some c := by
      rw [hst]; exact List.getLast?_concat rest
    have hdrop : st.connections.dropLast = rest := by
      rw [hst]; exact List.dropLast_concat
    constructor
    · unfold MllpClient.acquire
      rw [hlast]
      simp only [hdrop]
    · unfold MllpClient.send
      rw [hlast]
      simp only []
      exact sendLeased_connects _ _ _ _ _
  · intro hst
    have hlast : st.connections.getLast? = none := by rw [hst]; rfl
    constructor
    · unfold MllpClient.acquire
      rw [hlast]
    · unfold MllpClient.send
      rw [hlast]
      simp only []
      rcases cok with _ | _
      · rfl
      · simp only [if_true]
        exact sendLeased_connects _ _ _ _ _

/-- Witness for C6: a two-element idle list pops its last element with
`last_update` nulled, and an empty pool connects exactly once. -/
theorem acquisition_lifo_witness :
    (MllpClient.mk 0 negKeepAliveOptions
        [MllpConnection.new 0, expiredIdleConn]).acquire =
      (⟨0, negKeepAliveOptions, [MllpConnection.new 0]⟩,
       some { expiredIdleConn with last_update := none }) ∧
    (emptyNegClient.send 7 0 true (some [6])).connects = 1 :=
  ⟨((acquisition_lifo ⟨0, negKeepAliveOptions,
        [MllpConnection.new 0, expiredIdleConn]⟩ 7 0 true (some [6])).1
      [MllpConnection.new 0] expiredIdleConn rfl).1,
   ((acquisition_lifo emptyNegClient 7 0 true (some [6])).2 rfl).2⟩

/-
C7.
-/

/-- C7: network errors propagate out of `send` with no automatic retry.  A
connect failure (which can only happen when the idle list was empty) leaves the
pool exactly as it was, makes exactly one connect attempt, closes nothing, and
pools no connection; a `send_mllp` failure on a leased connection propagates as
a send failure with the connection neither closed nor re-pooled. -/
theorem network_errors_propagate (st : MllpClient) (fid : Nat) (now : Int)
    (ar : Option (List Nat)) :
    (st.connections = [] →
      st.send fid now false ar =
        { client := st, result := .connectFailure, connects := 1, closes := 0,
          conn := none, pooledBack := false }) ∧
    (∀ cok : Bool, st.connections ≠ [] ∨ cok = true →
      (st.send fid now cok none).result = .sendFailure ∧
      (st.send fid now cok none).closes = 0 ∧
      (st.send fid now cok none).pooledBack = false) := by
  constructor
  · intro hst
    have hlast : st.connections.getLast? = none := by rw [hst]; rfl
    unfold MllpClient.send
    rw [hlast]
    rfl
  · intro cok hne
    unfold MllpClient.send
    rcases hl : st.connections.getLast? with _ | c
    · have hemp : st.connections = [] := List.getLast?_eq_none_iff.mp hl
      have hcok : cok = true := by
        rcases hne with hne | hne
        · exact absurd hemp hne
        · exact hne
      rw [hcok]
      simp only [if_true]
      exact ⟨rfl, rfl, rfl⟩
    · exact ⟨rfl, rfl, rfl⟩

/-- Witness for C7: connect failure on the empty pool, and a send failure on a
pool holding one idle connection. -/
theorem network_errors_propagate_witness :
    emptyNegClient.send 3 0 false (some [6]) =
      { client := emptyNegClient, result := .connectFailure, connects := 1,
        closes := 0, conn := none, pooledBack := false } ∧
    ((MllpClient.mk 0 negKeepAliveOptions [expiredIdleConn]).send 3 0 true
        none).result = .sendFailure :=
  ⟨(network_errors_propagate emptyNegClient 3 0 (some [6])).1 rfl,
   (((network_errors_propagate ⟨0, negKeepAliveOptions, [expiredIdleConn]⟩ 3 0
        (some [6])).2 true (Or.inl (by decide)))).1⟩

/-
C8.
-/

/-- C8: for every inbound POST whose `Pool.send` succeeds, `do_POST` responds
with status 201, writes exactly the acknowledgement bytes returned by `send` as
the body, and sets the `Content-Length` header to the length of those bytes. -/
theorem post_success_response (cfg : HandlerConfig) (st : MllpClient)
    (cl : Nat) (rfile : List Nat) (fid : Nat) (now : Int) (cok : Bool)
    (ar : Option (List Nat)) (ack : List Nat)
    (hok : (st.send fid now cok ar).result = .ok ack) :
    ∃ resp,
      do_POST cfg st cl rfile fid now cok ar =
        ((st.send fid now cok ar).client, some resp) ∧
      resp.status = 201 ∧ resp.body = ack ∧
      resp.headers.lookup "Content-Length" = some (toString ack.length) := by
  simp only [do_POST, hok]
  exact ⟨_, rfl, rfl, rfl, by simp [List.lookup]⟩

/-- Witness for C8 at a concrete successful send on the empty pool. -/
theorem post_success_response_witness :
    ∃ resp,
      do_POST ⟨none, none⟩ emptyNegClient 3 [1, 2, 3] 0 0 true (some [6, 13]) =
        ((emptyNegClient.send 0 0 true (some [6, 13])).client, some resp) ∧
      resp.status = 201 ∧ resp.body = [6, 13] ∧
      resp.headers.lookup "Content-Length" = some (toString ([6, 13] : List Nat).length) :=
  post_success_response ⟨none, none⟩ emptyNegClient 3 [1, 2, 3] 0 0 true
    (some [6, 13]) [6, 13] (by decide)

/-
C9.
-/

/-- C9: when `send_mllp` raises on the leased connection, `send` propagates the
failure, closes nothing and re-pools nothing: the idle list is exactly the list
after the initial pop, and the leased connection's final state differs from the
popped one only in `last_update := None` (set at acquisition) and the
`message_count` increment — its socket and `close` attribute untouched.  With
distinct identities in the pool, the popped connection is gone from all pool
bookkeeping. -/
theorem send_failure_drops_leased (st : MllpClient) (fid : Nat) (now : Int)
    (cok : Bool) (h : st.connections ≠ [] ∨ cok = true) :
    (st.send fid now cok none).result = .sendFailure ∧
    (st.send fid now cok none).client.connections = st.connections.dropLast ∧
    (st.send fid now cok none).closes = 0 ∧
    (st.send fid now cok none).pooledBack = false ∧
    (∀ c, st.connections.getLast? = some c →
      (st.send fid now cok none).conn =
        some { c with last_update := none,
                      message_count := c.message_count + 1 }) ∧
    ((idsOf st.connections).Nodup → ∀ c, st.connections.getLast? = some c →
      c.id ∉ idsOf (st.send fid now cok none).client.connections) := by
  unfold MllpClient.send
  rcases hl : st.connections.getLast? with _ | c
  · have hemp : st.connections = [] := List.getLast?_eq_none_iff.mp hl
    have hcok : cok = true := by
      rcases h with h | h
      · exact absurd hemp h
      · exact h
    rw [hcok]
    simp only [if_true]
    refine ⟨rfl, ?_, rfl, rfl, ?_, ?_⟩
    · rw [hemp]
      exact hemp
    · intro c hc; cases hc
    · intro _ c hc; cases hc
  · refine ⟨rfl, rfl, rfl, rfl, ?_, ?_⟩
    · intro c' hc'
      injection hc' with h2
      subst h2
      rfl
    · intro hnodup c' hc'
      injection hc' with h2
      subst h2
      have hmem : c ∈ st.connections.getLast? := Option.mem_def.mpr hl
      have hsplit : st.connections.dropLast ++ [c] = st.connections :=
        List.dropLast_append_getLast? c hmem
      have hids : idsOf st.connections.dropLast ++ [c.id] = idsOf st.connections := by
        rw [← hsplit]
        simp [idsOf]
      rw [← hids] at hnodup
      have hdisj := (List.nodup_append.mp hnodup).2.2
      show c.id ∉ idsOf st.connections.dropLast
      intro hcmem
      exact hdisj hcmem (by simp)

/-- Witness for C9: a send failure on a one-connection pool empties the pool and
reports the failure. -/
theorem send_failure_drops_leased_witness :
    ((MllpClient.mk 0 negKeepAliveOptions [expiredIdleConn]).send 9 0 true
        none).result = .sendFailure ∧
    ((MllpClient.mk 0 negKeepAliveOptions [expiredIdleConn]).send 9 0 true
        none).client.connections = [] :=
  have h := send_failure_drops_leased ⟨0, negKeepAliveOptions, [expiredIdleConn]⟩
    9 0 true (Or.inr rfl)
  ⟨h.1, h.2.1⟩

/-
C1.
-/

/-- The last element of a list is a member of it. -/
theorem mem_of_getLast? {l : List MllpConnection} {c : MllpConnection}
    (h : l.getLast? = some c) : c ∈ l := by
  have h2 : l.dropLast ++ [c] = l :=
    List.dropLast_append_getLast? c (Option.mem_def.mpr h)
  rw [← h2]
  exact List.mem_append_right _ (List.mem_singleton_self c)

/-- Dropping the last element only removes identities. -/
theorem idsOf_dropLast_subset (l : List MllpConnection) :
    ∀ x ∈ idsOf l.dropLast, x ∈ idsOf l := by
  intro x hx
  exact ((List.dropLast_sublist l).map (fun c => c.id)).subset hx

/-- The post-lease part of `send` introduces no identity other than the leased
connection's into the idle list, and the connection it reports is the leased
one. -/
theorem sendLeased_absent {k : Nat} (st1 : MllpClient) (c0 : MllpConnection)
    (n : Nat) (now : Int) (ar : Option (List Nat))
    (hk : k ∉ idsOf st1.connections) (hc : c0.id ≠ k) :
    k ∉ idsOf (st1.sendLeased c0 n now ar).client.connections ∧
    (∀ c, (st1.sendLeased c0 n now ar).conn = some c → c.id ≠ k) := by
  unfold MllpClient.sendLeased
  rcases ar with _ | ack
  · refine ⟨hk, ?_⟩
    intro c h2
    injection h2 with h2
    subst h2
    exact hc
  · simp only []
    split
    · rcases hic : MllpConnection.invokeClose
          { c0 with message_count := c0.message_count + 1 } with _ | c2
      · refine ⟨hk, ?_⟩
        intro c h2
        injection h2 with h2
        subst h2
        exact hc
      · refine ⟨hk, ?_⟩
        intro c h2
        injection h2 with h2
        subst h2
        rw [invokeClose_preserves_id hic]
        exact hc
    · constructor
      · intro hmem
        rw [idsOf] at hmem
        rw [List.map_append] at hmem
        rcases List.mem_append.mp hmem with hmem | hmem
        · exact hk hmem
        · simp only [List.map_cons, List.map_nil, List.mem_singleton] at hmem
          exact hc hmem.symm
      · intro c h2
        injection h2 with h2
        subst h2
        exact hc

/-- A whole `send` call introduces no identity other than that of the connection
it leased (which is either already in the pool or the fresh one), and reports a
leased connection with that identity. -/
theorem send_absent {k : Nat} (st : MllpClient) (fid : Nat) (now : Int)
    (cok : Bool) (ar : Option (List Nat))
    (hk : k ∉ idsOf st.connections) (hf : fid ≠ k) :
    k ∉ idsOf (st.send fid now cok ar).client.connections ∧
    (∀ c, (st.send fid now cok ar).conn = some c → c.id ≠ k) := by
  unfold MllpClient.send
  rcases hl : st.connections.getLast? with _ | c
  · rcases cok with _ | _
    · exact ⟨hk, by intro c h2; cases h2⟩
    · exact sendLeased_absent st (MllpConnection.new fid) 1 now ar hk hf
  · have hcm : c ∈ st.connections := mem_of_getLast? hl
    have hcid : c.id ≠ k := by
      intro he
      exact hk (he ▸ List.mem_map_of_mem (fun x => x.id) hcm)
    have hk' : k ∉ idsOf st.connections.dropLast :=
      fun hx => hk (idsOf_dropLast_subset _ _ hx)
    exact sendLeased_absent _ { c with last_update := none } 0 now ar hk' hcid

/-- An identity absent from the idle list, and never handed out as a fresh
connection, stays absent across any run of sends and is never the identity of a
leased connection. -/
theorem runSends_absent (k : Nat) :
    ∀ (ins : List SendInput) (st : MllpClient),
      k ∉ idsOf st.connections → (∀ i ∈ ins, i.freshId ≠ k) →
      k ∉ idsOf (runSends st ins).connections ∧ k ∉ leasedIds st ins := by
  intro ins
  induction ins with
  | nil =>
      intro st hk _
      exact ⟨hk, by intro h2; cases h2⟩
  | cons i is ih =>
      intro st hk hf
      have hfi : i.freshId ≠ k := hf i (List.mem_cons_self i is)
      have h1 := send_absent st i.freshId i.now i.connectOk i.ack hk hfi
      have hrest := ih (st.send i.freshId i.now i.connectOk i.ack).client h1.1
        (fun j hj => hf j (List.mem_cons_of_mem i hj))
      refine ⟨hrest.1, ?_⟩
      simp only [leasedIds]
      intro hmem
      rcases List.mem_append.mp hmem with hmem | hmem
      · rcases hr : (st.send i.freshId i.now i.connectOk i.ack).conn with _ | c
        · rw [hr] at hmem
          cases hmem
        · rw [hr] at hmem
          simp only [List.mem_singleton] at hmem
          exact h1.2 c hr hmem.symm
      · exact hrest.2 hmem

/-- A successful `close()` invocation yields exactly the input connection with
the `close` attribute rebound and the socket shut. -/
theorem invokeClose_fields {c c' : MllpConnection}
    (h : c.invokeClose = some c') :
    c' = { c with closeRebound := true, socketOpen := false } := by
  unfold MllpConnection.invokeClose at h
  split at h
  · cases h
  · injection h with h
    exact h.symm

/-- Release behaviour of the post-lease part of a successful send: the reported
connection is the leased one with `message_count` incremented; if the rotation
bound applies to it the close ran (socket closed, `close` attribute rebound),
exactly one close happened and the idle list is exactly the post-pop list;
otherwise it was stamped idle with the current time and appended. -/
theorem sendLeased_ok_spec (st1 : MllpClient) (c0 : MllpConnection) (n : Nat)
    (now : Int) (ack : List Nat) (c : MllpConnection)
    (hconn : (st1.sendLeased c0 n now (some ack)).conn = some c)
    (hok : (st1.sendLeased c0 n now (some ack)).result = .ok ack) :
    c.id = c0.id ∧ c.message_count = c0.message_count + 1 ∧
    ((0 ≤ st1.options.max_messages ∧
        st1.options.max_messages ≤ (c.message_count : Int)) →
      c.socketOpen = false ∧ c.closeRebound = true ∧
      (st1.sendLeased c0 n now (some ack)).closes = 1 ∧
      (st1.sendLeased c0 n now (some ack)).pooledBack = false ∧
      (st1.sendLeased c0 n now (some ack)).client.connections =
        st1.connections) ∧
    (¬(0 ≤ st1.options.max_messages ∧
        st1.options.max_messages ≤ (c.message_count : Int)) →
      c.last_update = some now ∧
      (st1.sendLeased c0 n now (some ack)).pooledBack = true ∧
      (st1.sendLeased c0 n now (some ack)).client.connections =
        st1.connections ++ [c]) := by
  unfold MllpClient.sendLeased at *
  simp only [] at *
  by_cases hcond : st1.options.max_messages ≤ ((c0.message_count + 1 : Nat) : Int) ∧
      0 ≤ st1.options.max_messages
  · rw [if_pos hcond] at hconn hok ⊢
    rcases hic : MllpConnection.invokeClose
        { c0 with message_count := c0.message_count + 1 } with _ | c2
    · rw [hic] at hok
      cases hok
    · rw [hic] at hconn
      injection hconn with hconn
      have hc2 : c =
          { id := c0.id, closed := c0.closed, closeRebound := true,
            socketOpen := false, last_update := c0.last_update,
            message_count := c0.message_count + 1 } := by
        rw [← hconn]
        exact invokeClose_fields hic
      subst hc2
      refine ⟨rfl, rfl, ?_, ?_⟩
      · intro _
        exact ⟨rfl, rfl, rfl, rfl, rfl⟩
      · intro hnc
        exact absurd (⟨hcond.2, hcond.1⟩ :
          0 ≤ st1.options.max_messages ∧
          st1.options.max_messages ≤ ((c0.message_count + 1 : Nat) : Int)) hnc
  · rw [if_neg hcond] at hconn hok ⊢
    injection hconn with hconn
    subst hconn
    refine ⟨rfl, rfl, ?_, ?_⟩
    · intro hc2
      exact absurd (⟨hc2.2, hc2.1⟩ :
        st1.options.max_messages ≤ ((c0.message_count + 1 : Nat) : Int) ∧
        0 ≤ st1.options.max_messages) hcond
    · intro _
      exact ⟨rfl, rfl, rfl⟩

/-- With identities distinct in the pool, the popped (last) connection's
identity does not remain in the post-pop list. -/
theorem getLast?_id_not_in_dropLast {l : List MllpConnection}
    {c : MllpConnection} (hnodup : (idsOf l).Nodup) (hl : l.getLast? = some c) :
    c.id ∉ idsOf l.dropLast := by
  have hmem : c ∈ l.getLast? := Option.mem_def.mpr hl
  have hsplit : l.dropLast ++ [c] = l := List.dropLast_append_getLast? c hmem
  have hids : idsOf l.dropLast ++ [c.id] = idsOf l := by
    rw [← hsplit]
    simp [idsOf]
  rw [← hids] at hnodup
  have hdisj := (List.nodup_append.mp hnodup).2.2
  intro hcmem
  exact hdisj hcmem (by simp)

/-- C1: release behaviour of every successful `send` (assuming the pool holds
distinct connection objects and the fresh identity is genuinely new).  Writing
`r` for the send's result and `c` for the final state of the connection it used:
if `max_messages` is non-negative and `c`'s message count (after the send) has
reached it, the connection was closed (socket shut, `close` attribute rebound,
exactly one close) and was not pushed back — the idle list is exactly the
post-pop list, and no later sequence of sends that does not reuse `c`'s identity
for a fresh connection ever has `c` in the idle list or leases it again;
otherwise `c` was stamped idle with the current time and appended to the idle
list. -/
theorem send_release_rotation (st : MllpClient) (fid : Nat) (now : Int)
    (cok : Bool) (ack : List Nat) (c : MllpConnection)
    (hnodup : (idsOf st.connections).Nodup)
    (hfid : fid ∉ idsOf st.connections)
    (hconn : (st.send fid now cok (some ack)).conn = some c)
    (hok : (st.send fid now cok (some ack)).result = .ok ack) :
    ((0 ≤ st.options.max_messages ∧
        st.options.max_messages ≤ (c.message_count : Int)) →
      c.socketOpen = false ∧ c.closeRebound = true ∧
      (st.send fid now cok (some ack)).closes = 1 ∧
      (st.send fid now cok (some ack)).pooledBack = false ∧
      (st.send fid now cok (some ack)).client.connections =
        st.connections.dropLast ∧
      (∀ ins : List SendInput, (∀ i ∈ ins, i.freshId ≠ c.id) →
        c.id ∉
          idsOf (runSends (st.send fid now cok (some ack)).client ins).connections ∧
        c.id ∉ leasedIds (st.send fid now cok (some ack)).client ins)) ∧
    (¬(0 ≤ st.options.max_messages ∧
        st.options.max_messages ≤ (c.message_count : Int)) →
      c.last_update = some now ∧
      (st.send fid now cok (some ack)).pooledBack = true ∧
      (st.send fid now cok (some ack)).client.connections =
        st.connections.dropLast ++ [c]) := by
  rcases hl : st.connections.getLast? with _ | cp
  · have hemp : st.connections = [] := List.getLast?_eq_none_iff.mp hl
    have hsend : st.send fid now cok (some ack) =
        (if cok then st.sendLeased (MllpConnection.new fid) 1 now (some ack)
         else
           { client := st, result := .connectFailure, connects := 1, closes := 0,
             conn := none, pooledBack := false }) := by
      unfold MllpClient.send
      rw [hl]
    rcases cok with _ | _
    · rw [hsend] at hconn
      simp at hconn
    · rw [if_pos rfl] at hsend
      rw [hsend] at hconn hok ⊢
      have hspec := sendLeased_ok_spec st (MllpConnection.new fid) 1 now ack c
        hconn hok
      have hcid : c.id = fid := hspec.1
      constructor
      · intro hcondc
        obtain ⟨hso, hcr, hcl, hpb, hconnl⟩ := hspec.2.2.1 hcondc
        rw [hemp] at hconnl
        have habs : c.id ∉
            idsOf (st.sendLeased (MllpConnection.new fid) 1 now
              (some ack)).client.connections := by
          rw [hconnl]
          intro h2
          simp [idsOf] at h2
        refine ⟨hso, hcr, hcl, hpb, ?_, ?_⟩
        · rw [hemp]
          exact hconnl
        · intro ins hf
          exact runSends_absent c.id ins _ habs hf
      · intro hncond
        obtain ⟨hlu, hpb, hconnl⟩ := hspec.2.2.2 hncond
        rw [hemp] at hconnl
        refine ⟨hlu, hpb, ?_⟩
        rw [hemp]
        exact hconnl
  · have hsend : st.send fid now cok (some ack) =
        MllpClient.sendLeased { st with connections := st.connections.dropLast }
          { cp with last_update := none } 0 now (some ack) := by
      unfold MllpClient.send
      rw [hl]
    rw [hsend] at hconn hok ⊢
    have hspec := sendLeased_ok_spec
      { st with connections := st.connections.dropLast }
      { cp with last_update := none } 0 now ack c hconn hok
    have hcid : c.id = cp.id := hspec.1
    constructor
    · intro hcondc
      obtain ⟨hso, hcr, hcl, hpb, hconnl⟩ := hspec.2.2.1 hcondc
      have habs : c.id ∉
          idsOf (MllpClient.sendLeased
            { st with connections := st.connections.dropLast }
            { cp with last_update := none } 0 now
            (some ack)).client.connections := by
        rw [hconnl]
        rw [hcid]
        exact getLast?_id_not_in_dropLast hnodup hl
      refine ⟨hso, hcr, hcl, hpb, hconnl, ?_⟩
      intro ins hf
      exact runSends_absent c.id ins _ habs hf
    · intro hncond
      obtain ⟨hlu, hpb, hconnl⟩ := hspec.2.2.2 hncond
      exact ⟨hlu, hpb, hconnl⟩

/-- A pool with rotation bound `max_messages = 1` (and `keep_alive = 5`). -/
def rotationClient : MllpClient := ⟨0, ⟨some 5, 1, 0⟩, []⟩

/-- Witness for C1: on the `max_messages = 1` pool, the first successful send
hits the bound, closes the connection (socket shut) and pools nothing. -/
theorem send_release_rotation_witness :
    MllpConnection.socketOpen ⟨0, false, true, false, none, 1⟩ = false ∧
    (rotationClient.send 0 0 true (some [6])).closes = 1 ∧
    (rotationClient.send 0 0 true (some [6])).pooledBack = false :=
  have h := (send_release_rotation rotationClient 0 0 true [6]
      ⟨0, false, true, false, none, 1⟩ (by decide) (by decide) (by decide)
      (by decide)).1 (by decide)
  ⟨h.1, h.2.2.1, h.2.2.2.1⟩
